import Mathlib

/-!
Shallow embedding of the heuristic extraction pipeline of `src/main.py`
(company-homepage scraper): the tagline, name, contact, size, industry and
location extractors and the orchestrating endpoint.  External collaborators
(HTTP fetching, BeautifulSoup HTML parsing, spaCy NLP tagging/tokenisation,
OpenCage geocoding) are modelled by their narrow contracts: a parsed page is a
record of headers/title/meta/links, an analysed document is a list of labelled
entity spans, the geocoder is a function parameter that may fail.

Python string operations (`lower`, `strip`, `in`, `replace`, `split`) are
re-implemented over `String.data` character lists so that every definition
evaluates by kernel reduction.  ASCII case-folding suffices for the texts the
extractors compare (keyword tables, scheme markers, generic-word sets).
-/

/-- ASCII lower-casing of one character, as Python `str.lower` acts on the
ASCII range. -/
def lowerChar (c : Char) : Char :=
  if 'A' ≤ c ∧ c ≤ 'Z' then Char.ofNat (c.toNat + 32) else c

/-- Python `s.lower()` (ASCII range). -/
def pyLower (s : String) : String := ⟨s.data.map lowerChar⟩

/-- Substring test on character lists: does `needle` occur contiguously in the
second list? -/
def infixChars (needle : List Char) : List Char → Bool
  | [] => needle.isEmpty
  | c :: t => needle.isPrefixOf (c :: t) || infixChars needle t

/-- Python `needle in hay` for strings. -/
def pyIn (needle hay : String) : Bool := infixChars needle.data hay.data

/-- Whitespace characters stripped by Python `str.strip()` / split by
`str.split()`: space, tab, newline, vertical tab, form feed, carriage
return. -/
def isWsChar (c : Char) : Bool := c.toNat = 32 || (9 ≤ c.toNat && c.toNat ≤ 13)

/-- Python `s.strip()`: remove leading and trailing whitespace. -/
def pyStrip (s : String) : String :=
  ⟨((s.data.dropWhile isWsChar).reverse.dropWhile isWsChar).reverse⟩

/-- Fuelled worker for `pyReplace`; the fuel starts at the length of the
subject so it never runs out (each step consumes at least one character). -/
def replaceCharsAux (pat rep : List Char) : Nat → List Char → List Char
  | 0, s => s
  | _ + 1, [] => []
  | fuel + 1, c :: t =>
    if pat.length ≠ 0 ∧ pat.isPrefixOf (c :: t) then
      rep ++ replaceCharsAux pat rep fuel (t.drop (pat.length - 1))
    else
      c :: replaceCharsAux pat rep fuel t

/-- Python `s.replace(pat, rep)`: replace every non-overlapping occurrence,
scanning left to right. -/
def pyReplace (s pat rep : String) : String :=
  ⟨replaceCharsAux pat.data rep.data s.data.length s.data⟩

/-- Worker for `wordCount`: the flag records whether the previous character was
inside a word. -/
def wordCountAux : List Char → Bool → Nat
  | [], _ => 0
  | c :: t, inWord =>
    if isWsChar c then wordCountAux t false
    else (if inWord then 0 else 1) + wordCountAux t true

/-- Python `len(s.split())`: the number of maximal whitespace-free runs. -/
def wordCount (s : String) : Nat := wordCountAux s.data false

/-- Characters of a list strictly before the first occurrence of `sep`;
Python `s.split(sep)[0]` for a non-empty separator. -/
def beforeFirst (sep : List Char) : List Char → List Char
  | [] => []
  | c :: t => if sep.isPrefixOf (c :: t) then [] else c :: beforeFirst sep t

/-- Worker for `pyDedup`, keeping the first occurrence of each element. -/
def pyDedupAux (seen : List String) : List String → List String
  | [] => []
  | x :: t => if x ∈ seen then pyDedupAux seen t else x :: pyDedupAux (x :: seen) t

/-- Order-normalised model of Python `list(set(xs))`: duplicates removed,
keeping first occurrences.  (CPython's set iteration order is unspecified; the
claims about these values only concern membership and size.) -/
def pyDedup (l : List String) : List String := pyDedupAux [] l

/-- Add `v` to the count stored under key `k` in an insertion-ordered
association list, appending the key if absent — the behaviour of
`collections.Counter` / `defaultdict(int)` updates. -/
def bump (k : String) (v : Nat) : List (String × Nat) → List (String × Nat)
  | [] => [(k, v)]
  | (k', v') :: t => if k' = k then (k', v' + v) :: t else (k', v') :: bump k v t

/-- Lookup in an association list (`m[k]` on a Python dict). -/
def alookup (k : String) : List (String × Nat) → Option Nat
  | [] => none
  | (k', v) :: t => if k' = k then some v else alookup k t

/-! ## Data model

The parsed HTML page, as delivered by the BeautifulSoup collaborator, and the
spaCy analysed document. -/

/-- A header element (`<h1>`/`<h2>`/`<h3>` have levels 1/2/3) with its inner
text, in document order inside `PageHtml.headers`. -/
structure Header where
  level : Nat
  text : String
deriving DecidableEq

/-- The parsed page: all header elements in document order, the `<title>`
string (if a title tag with a string child is present), the content attribute
of the `<meta name="description">` tag (if present), and the `href` values of
all anchor tags carrying one, in document order. -/
structure PageHtml where
  headers : List Header
  title : Option String
  metaDesc : Option String
  hrefs : List String

/-- One spaCy entity span: its text and its label (`"ORG"`, `"GPE"`, ...). -/
structure Entity where
  text : String
  label : String

/-! ## Tagline extractor (`extract_tagline`, src/main.py lines 234-267) -/

/-- The generic words the tagline extractor ignores (line 247). -/
def generic_words : List String := ["home", "welcome", "contact", "about"]

/-- The filter of lines 254 and 259: the text is not (case-insensitively) a
generic word and splits into more than one word. -/
def taglineQualifies (text : String) : Bool :=
  !(generic_words.contains (pyLower text)) && decide (wordCount text > 1)

/-- BeautifulSoup `soup.find(tag)`: the first header of the given level in
document order. -/
def findHeaderLevel (page : PageHtml) (lvl : Nat) : Option Header :=
  page.headers.find? (fun h => h.level = lvl)

/-- Step 1 of `extract_tagline` (lines 250-255): for each tag name `h1`, `h2`,
`h3` in that order, look only at the first header of that level; return its
stripped text if it passes the filter, otherwise move on to the next level. -/
def taglineFromHeaders (page : PageHtml) : Option String :=
  [1, 2, 3].findSome? (fun lvl =>
    match findHeaderLevel page lvl with
    | some h =>
      let text := pyStrip h.text
      if taglineQualifies text then some text else none
    | none => none)

/-- `extract_tagline` (lines 234-267): headers, then the title under the same
filter (an empty stripped title is falsy and skipped), then the meta
description content when non-empty, else `"Unknown"`. -/
def extract_tagline (page : PageHtml) : String :=
  match taglineFromHeaders page with
  | some t => t
  | none =>
    match page.title with
    | some t0 =>
      let t := pyStrip t0
      if t ≠ "" && taglineQualifies t then t
      else
        match page.metaDesc with
        | some c => if c ≠ "" then pyStrip c else "Unknown"
        | none => "Unknown"
    | none =>
      match page.metaDesc with
      | some c => if c ≠ "" then pyStrip c else "Unknown"
      | none => "Unknown"

/-- Modelled from the claim (not from the code): the first header element
among levels 1-3 in document order whose trimmed text passes the
generic/length filter.  Used only to exhibit where the code diverges from the
claim. -/
def claimFirstHeaderTagline (page : PageHtml) : Option String :=
  (page.headers.filter (fun h => 1 ≤ h.level && h.level ≤ 3)).findSome?
    (fun h =>
      let text := pyStrip h.text
      if taglineQualifies text then some text else none)

/-- The representatives the code actually examines: the first header of each
level 1, 2, 3, in that level order. -/
def levelReps (page : PageHtml) : List Header :=
  [1, 2, 3].filterMap (findHeaderLevel page)

/-! ## Name extractor (`extract_company_name`, src/main.py lines 68-105) -/

/-- The title separators of line 84. -/
def titleSeps : List String := ["|", "-", ":", "–", "•"]

/-- The stripped title string of the page (line 81); `""` when the page has no
title tag. -/
def rawTitle (page : PageHtml) : String :=
  match page.title with
  | some t => pyStrip t
  | none => ""

/-- The title-cleaning loop of lines 84-86: for each separator in turn, if it
occurs in the running title, keep only the stripped text before its first
occurrence. -/
def cleanTitle (t : String) : String :=
  titleSeps.foldl
    (fun t sep => if pyIn sep t then pyStrip ⟨beforeFirst sep.data t.data⟩ else t) t

/-- The generic-term blacklist of line 92. -/
def nameBlacklist : List String :=
  ["Financial", "Healthcare", "Solutions", "Lists", "Database", "Ecosystem"]

/-- Lines 89-93: texts of ORG-labelled entities, minus those containing a
blacklisted term case-insensitively. -/
def survivors (doc : List Entity) : List String :=
  ((doc.filter (fun e => e.label = "ORG")).map (fun e => e.text)).filter
    (fun org => !(nameBlacklist.any (fun kw => pyIn (pyLower kw) (pyLower org))))

/-- `Counter(org_entities)` (line 96): occurrence counts keyed in
first-encounter order. -/
def entityCounts (orgs : List String) : List (String × Nat) :=
  orgs.foldl (fun m org => bump org 1 m) []

/-- The title-boost condition of line 98. -/
def titleBoost (title org : String) : Bool := pyIn (pyLower org) (pyLower title)

/-- The context-boost condition of line 100: the text mentions `"company"`
(lower-cased) and contains the entity text verbatim. -/
def contextBoost (cleaned org : String) : Bool :=
  pyIn "company" (pyLower cleaned) && pyIn org cleaned

/-- The scoring loop of lines 97-101.  Note it runs over the entity list WITH
duplicates, so each bonus is added once per occurrence of the entity. -/
def entityScores (orgs : List String) (title cleaned : String) : List (String × Nat) :=
  orgs.foldl
    (fun m org =>
      let m := if titleBoost title org then bump org 5 m else m
      if contextBoost cleaned org then bump org 3 m else m)
    (entityCounts orgs)

/-- Python `max(entity_counts, key=...)` over a non-empty dict: the first key
attaining the maximum value, in iteration (insertion) order. -/
def pickMaxAux (bk : String) (bv : Nat) : List (String × Nat) → String
  | [] => bk
  | (k, v) :: t => if v > bv then pickMaxAux k v t else pickMaxAux bk bv t

/-- First key with maximal value, `none` on the empty list. -/
def pickMax : List (String × Nat) → Option String
  | [] => none
  | (k, v) :: t => some (pickMaxAux k v t)

/-- `extract_company_name` (lines 68-105): highest-scoring surviving ORG
entity, else the cleaned title, else `"Unknown"`. -/
def extract_company_name (doc : List Entity) (cleaned : String) (page : PageHtml) : String :=
  let title := cleanTitle (rawTitle page)
  match pickMax (entityScores (survivors doc) title cleaned) with
  | some k => k
  | none => if title ≠ "" then title else "Unknown"

/-- Modelled from the claim (not from the code): the per-distinct-entity score
the claim asserts — occurrence count plus a single +5 title bonus plus a
single +3 context bonus. -/
def claimScore (occ : Nat) (tb cb : Bool) : Nat :=
  occ + (if tb then 5 else 0) + (if cb then 3 else 0)

/-! ## Contact extractor (`extract_contact_info`, src/main.py lines 211-232) -/

/-- The `{"emails": [...], "phones": [...]}` dict the extractor returns; the
model is a record with exactly those two fields. -/
structure ContactInfo where
  emails : List String
  phones : List String
deriving DecidableEq

/-- `extract_contact_info` (lines 211-232): every anchor href containing
`"mailto:"` contributes that href with all `"mailto:"` occurrences deleted and
whitespace stripped to the email list, every href containing `"tel:"`
likewise to the phone list; both lists are deduplicated at the end.  The two
loops append in document order; appending the transforms of the matching
hrefs in order is that same computation. -/
def extract_contact_info (page : PageHtml) : ContactInfo :=
  let emails := (page.hrefs.filter (fun h => pyIn "mailto:" h)).map
    (fun h => pyStrip (pyReplace h "mailto:" ""))
  let phones := (page.hrefs.filter (fun h => pyIn "tel:" h)).map
    (fun h => pyStrip (pyReplace h "tel:" ""))
  ⟨pyDedup emails, pyDedup phones⟩

/-! ## Size extractor (`extract_company_size`, src/main.py lines 114-150)

The spaCy `Matcher` is modelled at the token level: a pattern is a list of
single-token specifications (`{"LOWER": s}` or `{"IS_DIGIT": True}`), and the
document is its token list.  The matcher's output order is modelled as start
position first, then pattern order; the code returns on the first match
whatever it is. -/

/-- One token specification of a matcher pattern. -/
inductive TokenSpec where
  | lowerTok (s : String)
  | digitTok
deriving DecidableEq

/-- Python `str.isdigit` on a token (ASCII digits, non-empty). -/
def isDigitStr (s : String) : Bool :=
  !s.data.isEmpty && s.data.all (fun c => '0' ≤ c && c ≤ '9')

/-- Does a token satisfy a specification (`{"LOWER": s}` compares the
lower-cased token, `{"IS_DIGIT": True}` is `str.isdigit`)? -/
def tokMatches : TokenSpec → String → Bool
  | .lowerTok s, t => pyLower t = s
  | .digitTok, t => isDigitStr t

/-- The five `COMPANY_SIZE` patterns of lines 127-133. -/
def sizePatterns : List (List TokenSpec) :=
  [ [.lowerTok "team", .lowerTok "of", .digitTok, .lowerTok "people"],
    [.digitTok, .lowerTok "employees"],
    [.digitTok, .lowerTok "staff"],
    [.lowerTok "over", .digitTok, .lowerTok "employees"],
    [.lowerTok "fewer", .lowerTok "than", .digitTok, .lowerTok "employees"] ]

/-- Does the pattern match the leading tokens of the list, one spec per
token? -/
def patMatches : List TokenSpec → List String → Bool
  | [], _ => true
  | _ :: _, [] => false
  | s :: ps, t :: ts => tokMatches s t && patMatches ps ts

/-- All `(start, end)` matcher spans over the token list, ordered by start
position and then by pattern order. -/
def allMatches (toks : List String) : List (Nat × Nat) :=
  (List.range toks.length).flatMap (fun i =>
    sizePatterns.filterMap (fun pat =>
      if patMatches pat (toks.drop i) then some (i, i + pat.length) else none))

/-- The digit characters of the span's text, in order: `span.text` joins the
tokens with spaces and `filter(str.isdigit, ...)` keeps exactly the digit
characters of the covered tokens. -/
def spanDigits (toks : List String) (i j : Nat) : List Char :=
  ((toks.drop i).take (j - i)).foldl (fun acc t => acc ++ t.data.filter Char.isDigit) []

/-- Decimal value of a digit-character list (`int("".join(...))`). -/
def digitsToNat (cs : List Char) : Nat :=
  cs.foldl (fun n c => n * 10 + (c.toNat - 48)) 0

/-- The bucketing of lines 142-147. -/
def bucketName (n : Nat) : String :=
  if n < 50 then "Small" else if n < 500 then "Medium" else "Large"

/-- `extract_company_size` (lines 114-150): the loop over matches returns on
its first iteration, so the first match decides; no match gives
`"Unknown"`. -/
def extract_company_size (toks : List String) : String :=
  match allMatches toks with
  | [] => "Unknown"
  | (i, j) :: _ => bucketName (digitsToNat (spanDigits toks i j))

/-! ## Industry classifier (`determine_specific_industry`, src/main.py
lines 177-208) -/

/-- The static keyword table of lines 22-27. -/
def industry_keywords : List (String × List String) :=
  [ ("finance", ["banking", "financial", "investment", "insurance", "wealth"]),
    ("healthcare", ["medical", "healthcare", "hospital", "clinic", "pharma"]),
    ("technology", ["tech", "software", "cloud", "ai", "data science"]) ]

/-- The contextual anchors of line 182. -/
def contextual_anchors : List String := ["industry", "sector", "solutions for"]

/-- The anchor loop of lines 188-190 for one text-matched keyword of industry
`ind`: +2 per anchor whose bigram with the keyword (in either order) occurs in
the lower-cased text. -/
def anchorFold (cleaned kw ind : String) (m : List (String × Nat)) :
    List (String × Nat) :=
  contextual_anchors.foldl
    (fun m anchor =>
      if pyIn (anchor ++ " " ++ kw) (pyLower cleaned)
          || pyIn (kw ++ " " ++ anchor) (pyLower cleaned) then
        bump ind 2 m
      else m)
    m

/-- Lines 187-191 for one `(industry, keyword)` pair: when the keyword occurs
in the lower-cased text, run the anchor loop and then add 1. -/
def textKwStep (cleaned ind : String) (m : List (String × Nat)) (kw : String) :
    List (String × Nat) :=
  if pyIn kw (pyLower cleaned) then bump ind 1 (anchorFold cleaned kw ind m) else m

/-- The first scoring loop (lines 185-191) over the whole keyword table. -/
def textFold (cleaned : String) (tbl : List (String × List String))
    (m : List (String × Nat)) : List (String × Nat) :=
  tbl.foldl (fun m p => p.2.foldl (textKwStep cleaned p.1) m) m

/-- Lines 197-199 for one keyword against one ORG entity text: +3 when the
keyword occurs in the lower-cased entity text. -/
def orgKwStep (entText ind : String) (m : List (String × Nat)) (kw : String) :
    List (String × Nat) :=
  if pyIn kw (pyLower entText) then bump ind 3 m else m

/-- Lines 194-199 for one entity: ORG entities are scored against the whole
table, others are skipped. -/
def orgStep (tbl : List (String × List String)) (m : List (String × Nat))
    (ent : Entity) : List (String × Nat) :=
  if ent.label = "ORG" then
    tbl.foldl (fun m p => p.2.foldl (orgKwStep ent.text p.1) m) m
  else m

/-- The scoring loops of lines 184-199 over an insertion-ordered
`defaultdict(int)`: +2 per anchor forming a bigram with a text-matched
keyword, +1 per keyword occurring in the lower-cased text, +3 per keyword
occurring in a lower-cased ORG entity text. -/
def industryScoresList (doc : List Entity) (cleaned : String)
    (tbl : List (String × List String)) : List (String × Nat) :=
  doc.foldl (orgStep tbl) (textFold cleaned tbl [])

/-- Insert into a descending-by-score list, before the first entry the new one
is ≥ — the stable placement `sorted(..., reverse=True)` gives an earlier
element among equals. -/
def insertScoreDesc (x : String × Nat) : List (String × Nat) → List (String × Nat)
  | [] => [x]
  | y :: t => if x.2 ≥ y.2 then x :: y :: t else y :: insertScoreDesc x t

/-- Python `sorted(items, key=lambda x: x[1], reverse=True)`: stable descending
sort by score. -/
def sortScoresDesc (l : List (String × Nat)) : List (String × Nat) :=
  l.foldr insertScoreDesc []

/-- `determine_specific_industry` (lines 177-208), returning the
`top_industry` label and the sorted score list. -/
def determine_specific_industry (doc : List Entity) (cleaned : String)
    (tbl : List (String × List String)) : String × List (String × Nat) :=
  match sortScoresDesc (industryScoresList doc cleaned tbl) with
  | [] => ("Unknown", [])
  | (i0, s0) :: rest =>
    if s0 = 0 then ("Unknown", [])
    else
      (String.intercalate ", "
        ((((i0, s0) :: rest).filter (fun p => p.2 = s0)).map Prod.fst),
        (i0, s0) :: rest)

/-! ## Location extractor (`extract_locations` / `parse_with_opencage`,
src/main.py lines 107-174)

The OpenCage geocoder is a function parameter: on a place-name string it
either raises (modelled `Except.error`), returns no result (`ok none`), or
returns the components of the first result (`ok (some ...)`). -/

/-- The component fields the code reads from the first geocoding result. -/
structure GeoComponents where
  city : Option String
  town : Option String
  village : Option String
  country : Option String

/-- Line 164: `components.get('city', components.get('town',
components.get('village')))`. -/
def cityOf (c : GeoComponents) : Option String :=
  match c.city with
  | some x => some x
  | none =>
    match c.town with
    | some x => some x
    | none => c.village

/-- A `{"city": ..., "country": ...}` or `{"country": ...}` entry of the
output list; both fields optional so that the shape of each dict is part of
the model. -/
structure StructuredLocation where
  city : Option String
  country : Option String
deriving DecidableEq

/-- The body of one loop iteration of lines 160-170 without the `try`:
propagates a geocoder error, otherwise appends the structured entry when a
country component is present. -/
def resolveStep (g : String → Except String (Option GeoComponents))
    (acc : List StructuredLocation) (loc : String) :
    Except String (List StructuredLocation) :=
  match g loc with
  | .error e => .error e
  | .ok none => .ok acc
  | .ok (some comps) =>
    match comps.country with
    | some country =>
      match cityOf comps with
      | some city => .ok (acc ++ [⟨some city, some country⟩])
      | none => .ok (acc ++ [⟨none, some country⟩])
    | none => .ok acc

/-- One loop iteration with its `try`/`except Exception: continue`
(lines 160-172): an error leaves the accumulator unchanged. -/
def caughtStep (g : String → Except String (Option GeoComponents))
    (acc : List StructuredLocation) (loc : String) : List StructuredLocation :=
  match resolveStep g acc loc with
  | .ok acc2 => acc2
  | .error _ => acc

/-- Does the geocoder raise on this string? -/
def geoFails (g : String → Except String (Option GeoComponents)) (s : String) : Bool :=
  match g s with
  | .error _ => true
  | .ok _ => false

/-- `parse_with_opencage` (lines 152-174): deduplicate, then resolve each
string, skipping the ones whose geocoding raises. -/
def parse_with_opencage (g : String → Except String (Option GeoComponents))
    (locations : List String) : List StructuredLocation :=
  (pyDedup locations).foldl (caughtStep g) []

/-- What one successfully geocoded string contributes, if anything. -/
def resolveOne (g : String → Except String (Option GeoComponents))
    (loc : String) : Option StructuredLocation :=
  match g loc with
  | .ok (some comps) =>
    match comps.country with
    | some country => some ⟨cityOf comps, some country⟩
    | none => none
  | _ => none

/-- `extract_locations` (lines 107-112): GPE entity texts through the
geocoder. -/
def extract_locations (doc : List Entity)
    (g : String → Except String (Option GeoComponents)) : List StructuredLocation :=
  parse_with_opencage g ((doc.filter (fun e => e.label = "GPE")).map (fun e => e.text))

/-! ## Orchestrator (`scrape_website` / `scrape_homepage`, src/main.py
lines 43-65 and 269-292) -/

/-- An `HTTPException`: status code and detail message. -/
structure HTTPErr where
  status : Nat
  detail : String
deriving DecidableEq

/-- What a completed fetch hands the pipeline: the parsed page and the
whitespace-normalised text of the page with scripts and styles removed. -/
structure FetchSuccess where
  page : PageHtml
  cleanedText : String

/-- Outcome of `requests.get` on the requested URL. -/
inductive FetchOutcome where
  | timeout
  | connError
  | httpError (status : Nat) (msg : String)
  | success (f : FetchSuccess)

/-- `scrape_website` (lines 43-65): maps fetch failures to `HTTPException`s
408 / 503 / propagated status, and success to the page and its cleaned
text. -/
def scrape_website : FetchOutcome → Except HTTPErr (PageHtml × String)
  | .timeout => .error ⟨408, "Request timed out while accessing the website."⟩
  | .connError => .error ⟨503, "Unable to connect to the website."⟩
  | .httpError st msg => .error ⟨st, "HTTP error occurred: " ++ msg⟩
  | .success f => .ok (f.page, f.cleanedText)

/-- The response record of a successful scrape (the `ScrapeResponse` model of
lines 34-40). -/
structure ScrapeResponse where
  company_name : String
  locations : List StructuredLocation
  industry : String
  industry_size : String
  contact_info : ContactInfo
  tagline : String

/-- `scrape_homepage` (lines 269-292): authorisation check, fetch, one spaCy
analysis, then the six extractors over the shared document and page.  The
spaCy pipeline is modelled by its two read-outs used here: `nlp` produces the
entity spans of the cleaned text, `tokenize` its token list.  An
`HTTPException` raised by the fetch is re-raised unchanged (line 289-290); the
model's extractors are total, so the broad `except Exception` branch
(line 291-292) is unreachable here. -/
def scrape_homepage (secret : String) (authorization : Option String)
    (fetch : FetchOutcome) (nlp : String → List Entity)
    (tokenize : String → List String)
    (g : String → Except String (Option GeoComponents)) :
    Except HTTPErr ScrapeResponse :=
  if authorization ≠ some secret then .error ⟨401, "Unauthorized"⟩
  else
    match scrape_website fetch with
    | .error e => .error e
    | .ok (page, cleaned) =>
      let doc := nlp cleaned
      .ok { company_name := extract_company_name doc cleaned page
          , locations := extract_locations doc g
          , industry := (determine_specific_industry doc cleaned industry_keywords).1
          , industry_size := extract_company_size (tokenize cleaned)
          , contact_info := extract_contact_info page
          , tagline := extract_tagline page }

/-! ## Helper lemmas -/

theorem mem_pyDedupAux (x : String) :
    ∀ (l : List String) (seen : List String),
      x ∈ pyDedupAux seen l ↔ x ∈ l ∧ x ∉ seen := by
  intro l
  induction l with
  | nil => intro seen; simp [pyDedupAux]
  | cons a t ih =>
    intro seen
    by_cases ha : a ∈ seen <;> by_cases hxa : x = a
    · subst hxa; simp [pyDedupAux, if_pos ha, ih, ha]
    · simp [pyDedupAux, if_pos ha, ih, hxa]
    · subst hxa; simp [pyDedupAux, if_neg ha, ha]
    · simp [pyDedupAux, if_neg ha, ih, hxa]

theorem mem_pyDedup (x : String) (l : List String) :
    x ∈ pyDedup l ↔ x ∈ l := by
  simp [pyDedup, mem_pyDedupAux]

theorem nodup_pyDedupAux :
    ∀ (l : List String) (seen : List String), (pyDedupAux seen l).Nodup := by
  intro l
  induction l with
  | nil => intro seen; simp [pyDedupAux]
  | cons a t ih =>
    intro seen
    by_cases ha : a ∈ seen
    · simpa [pyDedupAux, if_pos ha] using ih seen
    · have heq : pyDedupAux seen (a :: t) = a :: pyDedupAux (a :: seen) t := by
        simp [pyDedupAux, ha]
      rw [heq]
      refine List.Nodup.cons ?_ (ih (a :: seen))
      intro hmem
      exact ((mem_pyDedupAux a t (a :: seen)).mp hmem).2 (List.mem_cons_self _ _)

theorem nodup_pyDedup (l : List String) : (pyDedup l).Nodup :=
  nodup_pyDedupAux l []

/-! ## Claim C9: fetch timeout -/

/-- C9: when the upstream fetch times out, the endpoint terminates with
HTTP status 408 (and the fixed timeout message); the result is an error
carrying no `ScrapeResponse`, so no profile field is produced and no
extractor's output is returned. -/
theorem fetch_timeout_408 (secret : String) (nlp : String → List Entity)
    (tokenize : String → List String)
    (g : String → Except String (Option GeoComponents)) :
    scrape_homepage secret (some secret) .timeout nlp tokenize g =
      .error ⟨408, "Request timed out while accessing the website."⟩ := by
  simp [scrape_homepage, scrape_website]

/-! ## Claim C4: size buckets -/

/-- C4: the size extractor only ever answers Small/Medium/Large/Unknown; a
first matcher match is bucketed by its parsed number and never yields
Unknown; no match yields Unknown; and the buckets partition the naturals at
50 and 500, with 49/50/499/500 on the stated sides. -/
theorem size_bucketing :
    (∀ toks : List String,
      extract_company_size toks = "Small" ∨ extract_company_size toks = "Medium" ∨
      extract_company_size toks = "Large" ∨ extract_company_size toks = "Unknown")
    ∧ (∀ (toks : List String) (i j : Nat) (rest : List (Nat × Nat)),
        allMatches toks = (i, j) :: rest →
        extract_company_size toks = bucketName (digitsToNat (spanDigits toks i j))
          ∧ extract_company_size toks ≠ "Unknown")
    ∧ (∀ toks : List String, allMatches toks = [] → extract_company_size toks = "Unknown")
    ∧ (∀ n : Nat,
        (bucketName n = "Small" ↔ n < 50)
        ∧ (bucketName n = "Medium" ↔ 50 ≤ n ∧ n < 500)
        ∧ (bucketName n = "Large" ↔ 500 ≤ n))
    ∧ bucketName 49 = "Small" ∧ bucketName 50 = "Medium"
    ∧ bucketName 499 = "Medium" ∧ bucketName 500 = "Large" := by
  have hbucket : ∀ n : Nat,
      bucketName n = "Small" ∨ bucketName n = "Medium" ∨ bucketName n = "Large" := by
    intro n
    unfold bucketName
    split
    · exact Or.inl rfl
    · split
      · exact Or.inr (Or.inl rfl)
      · exact Or.inr (Or.inr rfl)
  have hne : ∀ n : Nat, bucketName n ≠ "Unknown" := by
    intro n
    rcases hbucket n with h | h | h <;> rw [h] <;> decide
  refine ⟨?_, ?_, ?_, ?_, by decide, by decide, by decide, by decide⟩
  · intro toks
    unfold extract_company_size
    cases h : allMatches toks with
    | nil => exact Or.inr (Or.inr (Or.inr rfl))
    | cons m rest =>
      rcases m with ⟨i, j⟩
      rcases hbucket (digitsToNat (spanDigits toks i j)) with h1 | h1 | h1
      · exact Or.inl h1
      · exact Or.inr (Or.inl h1)
      · exact Or.inr (Or.inr (Or.inl h1))
  · intro toks i j rest h
    unfold extract_company_size
    rw [h]
    exact ⟨rfl, hne _⟩
  · intro toks h
    unfold extract_company_size
    rw [h]
  · intro n
    unfold bucketName
    by_cases h1 : n < 50
    · rw [if_pos h1]
      exact ⟨⟨fun _ => h1, fun _ => rfl⟩,
             ⟨fun h => absurd h (by decide), fun h => absurd h1 (by omega)⟩,
             ⟨fun h => absurd h (by decide), fun h => absurd h1 (by omega)⟩⟩
    · by_cases h2 : n < 500
      · rw [if_neg h1, if_pos h2]
        exact ⟨⟨fun h => absurd h (by decide), fun h => absurd h h1⟩,
               ⟨fun _ => ⟨by omega, h2⟩, fun _ => rfl⟩,
               ⟨fun h => absurd h (by decide), fun h => absurd h2 (by omega)⟩⟩
      · rw [if_neg h1, if_neg h2]
        exact ⟨⟨fun h => absurd h (by decide), fun h => absurd h h1⟩,
               ⟨fun h => absurd h (by decide), fun h => absurd h.2 h2⟩,
               ⟨fun _ => by omega, fun _ => rfl⟩⟩

/-- Witness for `size_bucketing`: the document "500 employees" matches the
second pattern at position 0 and is bucketed Large, not Unknown. -/
theorem size_bucketing_witness :
    extract_company_size ["500", "employees"] =
      bucketName (digitsToNat (spanDigits ["500", "employees"] 0 2))
    ∧ extract_company_size ["500", "employees"] ≠ "Unknown" :=
  size_bucketing.2.1 ["500", "employees"] 0 2 [] (by decide)

/-! ## Claim C10: contact-info shape -/

/-- C10: the contact extractor's result is a record with exactly the fields
`emails` and `phones` (the dict of line 216 has exactly those two keys and
only they are ever written); each is duplicate-free, and both are present —
as empty lists — when the page has no hyperlinks. -/
theorem contact_info_shape :
    (∀ page : PageHtml,
      (extract_contact_info page).emails.Nodup
        ∧ (extract_contact_info page).phones.Nodup)
    ∧ ∀ (hs : List Header) (t m : Option String),
        extract_contact_info ⟨hs, t, m, []⟩ = ⟨[], []⟩ := by
  constructor
  · intro page
    exact ⟨nodup_pyDedup _, nodup_pyDedup _⟩
  · intro hs t m
    rfl

/-! ## Claim C3: contact classification -/

/-- C3 counterexample: the code classifies by substring containment, not by
scheme prefix, and the two scans are independent.  The single link
`tel:mailto:a@x.com` does not start with `mailto:` yet is put in the email
list, and it is put in the phone list as well — one link matches both
schemes, contradicting the claim. -/
theorem contact_both_schemes_counterexample :
    extract_contact_info ⟨[], none, none, ["tel:mailto:a@x.com"]⟩ =
      ⟨["tel:a@x.com"], ["mailto:a@x.com"]⟩
    ∧ (extract_contact_info ⟨[], none, none, ["tel:mailto:a@x.com"]⟩).emails ≠ []
    ∧ (extract_contact_info ⟨[], none, none, ["tel:mailto:a@x.com"]⟩).phones ≠ [] := by
  exact ⟨by decide, by decide, by decide⟩

/-- C3 amended: a hyperlink goes into the email (phone) list exactly when its
href CONTAINS `"mailto:"` (`"tel:"`) as a substring, contributing the href
with every occurrence of the marker deleted and whitespace stripped; a single
link may match both schemes; both lists are deduplicated.  On the claim's
concrete input the stated output does hold: emails `["a@x.com"]` (size 1) and
phones `["+1-555-0100"]`. -/
theorem contact_substring_classification :
    (∀ (page : PageHtml) (s : String),
      (s ∈ (extract_contact_info page).emails ↔
        ∃ h ∈ page.hrefs, pyIn "mailto:" h = true ∧ s = pyStrip (pyReplace h "mailto:" ""))
      ∧ (s ∈ (extract_contact_info page).phones ↔
        ∃ h ∈ page.hrefs, pyIn "tel:" h = true ∧ s = pyStrip (pyReplace h "tel:" "")))
    ∧ extract_contact_info ⟨[], none, none, ["mailto:a@x.com", "mailto:a@x.com", "tel:+1-555-0100"]⟩
        = ⟨["a@x.com"], ["+1-555-0100"]⟩ := by
  constructor
  · intro page s
    constructor
    · rw [show (extract_contact_info page).emails =
          pyDedup ((page.hrefs.filter (fun h => pyIn "mailto:" h)).map
            (fun h => pyStrip (pyReplace h "mailto:" ""))) from rfl]
      rw [mem_pyDedup]
      simp only [List.mem_map, List.mem_filter]
      constructor
      · rintro ⟨h, ⟨hmem, hin⟩, rfl⟩
        exact ⟨h, hmem, hin, rfl⟩
      · rintro ⟨h, hmem, hin, rfl⟩
        exact ⟨h, ⟨hmem, hin⟩, rfl⟩
    · rw [show (extract_contact_info page).phones =
          pyDedup ((page.hrefs.filter (fun h => pyIn "tel:" h)).map
            (fun h => pyStrip (pyReplace h "tel:" ""))) from rfl]
      rw [mem_pyDedup]
      simp only [List.mem_map, List.mem_filter]
      constructor
      · rintro ⟨h, ⟨hmem, hin⟩, rfl⟩
        exact ⟨h, hmem, hin, rfl⟩
      · rintro ⟨h, hmem, hin, rfl⟩
        exact ⟨h, ⟨hmem, hin⟩, rfl⟩
  · decide

/-! ## Claim C1: tagline extractor -/

/-- The first qualifying entry of a header list, as step 1 of the extractor
reads one. -/
def firstQualifying (reps : List Header) : Option String :=
  reps.findSome? (fun h =>
    if taglineQualifies (pyStrip h.text) then some (pyStrip h.text) else none)

theorem firstQualifying_of_find? (reps : List Header) (target : Header)
    (hfind : reps.find? (fun hd => taglineQualifies (pyStrip hd.text)) = some target) :
    firstQualifying reps = some (pyStrip target.text) := by
  induction reps with
  | nil => simp at hfind
  | cons a t ih =>
    rw [List.find?_cons] at hfind
    cases ha : taglineQualifies (pyStrip a.text) with
    | true =>
      simp only [ha] at hfind
      injection hfind with hfind
      subst hfind
      simp [firstQualifying, List.findSome?_cons, ha]
    | false =>
      simp only [ha] at hfind
      have := ih hfind
      simpa [firstQualifying, List.findSome?_cons, ha] using this

theorem taglineFromHeaders_eq_levelReps (page : PageHtml) :
    taglineFromHeaders page = firstQualifying (levelReps page) := by
  unfold taglineFromHeaders levelReps firstQualifying
  rcases h1 : findHeaderLevel page 1 with _ | a <;>
    rcases h2 : findHeaderLevel page 2 with _ | b <;>
      rcases h3 : findHeaderLevel page 3 with _ | c <;>
        simp [List.findSome?_cons, List.filterMap, h1, h2, h3]

/-- C1 amended: for each level 1, 2, 3 — in that order — the extractor looks
only at the FIRST header of that level in document order; it returns the
stripped text of the first of those (at most three) representatives whose
text is not a generic word and has more than one word.  Headers of a level
after the first are never consulted, so the claim's page with a generic first
h1 and a qualifying second h1 does not return the second h1's text. -/
theorem tagline_first_qualifying_level_rep (page : PageHtml) (target : Header)
    (hfind : (levelReps page).find?
      (fun hd => taglineQualifies (pyStrip hd.text)) = some target) :
    extract_tagline page = pyStrip target.text := by
  have h := firstQualifying_of_find? _ _ hfind
  rw [← taglineFromHeaders_eq_levelReps] at h
  unfold extract_tagline
  rw [h]

/-- Witness for `tagline_first_qualifying_level_rep`: a page whose first h1 is
generic but whose first h2 qualifies returns the h2 text. -/
theorem tagline_first_qualifying_level_rep_witness :
    extract_tagline ⟨[⟨1, "Welcome"⟩, ⟨2, "Great Products Here"⟩], none, none, []⟩ =
      pyStrip (Header.text ⟨2, "Great Products Here"⟩) :=
  tagline_first_qualifying_level_rep
    ⟨[⟨1, "Welcome"⟩, ⟨2, "Great Products Here"⟩], none, none, []⟩
    ⟨2, "Great Products Here"⟩ (by decide)

/-- C1 counterexample: on the claim's own example page — first h1 generic
`"Welcome"`, second h1 `"Building Tomorrow's Cloud"`, nothing else — the
first qualifying header in document order is the second h1 (as the claim's
reading predicts), but the code returns `"Unknown"`: `soup.find` only ever
yields the first header of each level. -/
theorem tagline_secondH1_counterexample :
    claimFirstHeaderTagline ⟨[⟨1, "Welcome"⟩, ⟨1, "Building Tomorrow\x27s Cloud"⟩], none, none, []⟩
      = some "Building Tomorrow\x27s Cloud"
    ∧ extract_tagline ⟨[⟨1, "Welcome"⟩, ⟨1, "Building Tomorrow\x27s Cloud"⟩], none, none, []⟩
      = "Unknown"
    ∧ extract_tagline ⟨[⟨1, "Welcome"⟩, ⟨1, "Building Tomorrow\x27s Cloud"⟩], none, none, []⟩
      ≠ "Building Tomorrow\x27s Cloud" := by
  exact ⟨by decide, by decide, by decide⟩

/-! ## Claim C2: name-extractor scoring -/

/-- One iteration of the counting loop (`Counter` construction). -/
def countStep (m : List (String × Nat)) (org : String) : List (String × Nat) :=
  bump org 1 m

/-- One iteration of the bonus loop of lines 97-101. -/
def bonusStep (title cleaned : String) (m : List (String × Nat)) (org : String) :
    List (String × Nat) :=
  let m2 := if titleBoost title org then bump org 5 m else m
  if contextBoost cleaned org then bump org 3 m2 else m2

theorem entityCounts_eq (orgs : List String) :
    entityCounts orgs = orgs.foldl countStep [] := rfl

theorem entityScores_eq (orgs : List String) (title cleaned : String) :
    entityScores orgs title cleaned =
      orgs.foldl (bonusStep title cleaned) (entityCounts orgs) := rfl

/-- The total bonus one occurrence of entity `e` adds in the loop. -/
def bonusOf (title cleaned e : String) : Nat :=
  (if titleBoost title e then 5 else 0) + (if contextBoost cleaned e then 3 else 0)

theorem alookup_bump (e k : String) (v : Nat) :
    ∀ m : List (String × Nat),
      alookup e (bump k v m) =
        if k = e then some ((alookup e m).getD 0 + v) else alookup e m := by
  intro m
  induction m with
  | nil =>
    by_cases hk : k = e
    · simp [bump, alookup, hk]
    · simp [bump, alookup, hk]
  | cons p t ih =>
    rcases p with ⟨k', v'⟩
    by_cases h1 : k' = k
    · subst h1
      by_cases h2 : k' = e
      · subst h2; simp [bump, alookup]
      · simp [bump, alookup, h2]
    · by_cases h2 : k' = e
      · have hk : ¬ k = e := fun h => h1 (h2.trans h.symm)
        have hek : ¬ e = k := fun h => h1 (h2.trans h)
        simp [bump, alookup, h1, h2, hk, hek]
      · simp [bump, alookup, h1, h2, ih]

theorem alookup_countAcc_some (e : String) :
    ∀ (l : List String) (m : List (String × Nat)) (v : Nat), alookup e m = some v →
      alookup e (l.foldl countStep m) = some (v + l.count e) := by
  intro l
  induction l with
  | nil => intro m v hm; simpa using hm
  | cons o t ih =>
    intro m v hm
    rw [List.foldl_cons]
    by_cases ho : o = e
    · subst ho
      have hstep : alookup o (countStep m o) = some (v + 1) := by
        unfold countStep; rw [alookup_bump]; simp [hm]
      rw [ih _ _ hstep, List.count_cons]
      simp only [beq_self_eq_true, if_true, Option.some.injEq]
      omega
    · have hstep : alookup e (countStep m o) = some v := by
        unfold countStep; rw [alookup_bump]; simp [ho, hm]
      rw [ih _ _ hstep, List.count_cons]
      have : (o == e) = false := by simp [ho]
      simp [this]

theorem alookup_countAcc_none (e : String) :
    ∀ (l : List String) (m : List (String × Nat)), alookup e m = none →
      alookup e (l.foldl countStep m) =
        if e ∈ l then some (l.count e) else none := by
  intro l
  induction l with
  | nil => intro m hm; simpa using hm
  | cons o t ih =>
    intro m hm
    rw [List.foldl_cons]
    by_cases ho : o = e
    · subst ho
      have hstep : alookup o (countStep m o) = some 1 := by
        unfold countStep; rw [alookup_bump]; simp [hm]
      rw [alookup_countAcc_some o t _ _ hstep, List.count_cons]
      simp only [List.mem_cons, true_or, if_pos, beq_self_eq_true, if_true,
        Option.some.injEq]
      omega
    · have hstep : alookup e (countStep m o) = none := by
        unfold countStep; rw [alookup_bump]; simp [ho, hm]
      rw [ih _ hstep, List.count_cons]
      have hbeq : (o == e) = false := by simp [ho]
      have hne : ¬ e = o := fun h => ho h.symm
      by_cases hel : e ∈ t
      · simp [hel, hbeq, List.mem_cons, hne]
      · simp [hel, hbeq, List.mem_cons, hne]

theorem alookup_entityCounts (e : String) (orgs : List String) (he : e ∈ orgs) :
    alookup e (entityCounts orgs) = some (orgs.count e) := by
  rw [entityCounts_eq, alookup_countAcc_none e orgs [] rfl, if_pos he]

theorem alookup_bonusStep_self (title cleaned e : String) (m : List (String × Nat))
    (v : Nat) (hm : alookup e m = some v) :
    alookup e (bonusStep title cleaned m e) = some (v + bonusOf title cleaned e) := by
  unfold bonusStep bonusOf
  by_cases htb : titleBoost title e <;> by_cases hcb : contextBoost cleaned e <;>
    simp [htb, hcb, alookup_bump, hm]

theorem alookup_bonusStep_other (title cleaned e o : String) (m : List (String × Nat))
    (ho : ¬ o = e) :
    alookup e (bonusStep title cleaned m o) = alookup e m := by
  unfold bonusStep
  by_cases htb : titleBoost title o <;> by_cases hcb : contextBoost cleaned o <;>
    simp [htb, hcb, alookup_bump, ho]

theorem alookup_bonusAcc (title cleaned e : String) :
    ∀ (l : List String) (m : List (String × Nat)) (v : Nat), alookup e m = some v →
      alookup e (l.foldl (bonusStep title cleaned) m) =
        some (v + l.count e * bonusOf title cleaned e) := by
  intro l
  induction l with
  | nil => intro m v hm; simpa using hm
  | cons o t ih =>
    intro m v hm
    rw [List.foldl_cons]
    by_cases ho : o = e
    · subst ho
      rw [ih _ _ (alookup_bonusStep_self title cleaned o m v hm), List.count_cons]
      simp only [beq_self_eq_true, if_true, Option.some.injEq]
      ring
    · rw [ih _ _ (by rw [alookup_bonusStep_other title cleaned e o m ho]; exact hm),
        List.count_cons]
      have : (o == e) = false := by simp [ho]
      simp [this]

/-- C2 amended: in the name extractor, the scoring loop runs over the
surviving entity list WITH repetitions, so each surviving entity's final
score is its occurrence count times (1 + 5 if its lowercase text occurs in
the lowercase cleaned title + 3 if "company" occurs in the lowercased
cleaned text and the entity occurs verbatim in it) — the bonuses accrue once
per occurrence, not once per distinct entity.  The highest-scoring entity is
still returned (ties to the first maximum in insertion order), and in the
claim's scenario — title "Acme Corp | Home", "Acme Corp" three times, a
competitor "Beta Inc" three times only in body text — "Acme Corp" wins. -/
theorem name_score_per_occurrence :
    (∀ (orgs : List String) (title cleaned e : String), e ∈ orgs →
      alookup e (entityScores orgs title cleaned) =
        some (orgs.count e * (1 + bonusOf title cleaned e)))
    ∧ extract_company_name
        [⟨"Acme Corp", "ORG"⟩, ⟨"Beta Inc", "ORG"⟩, ⟨"Acme Corp", "ORG"⟩,
         ⟨"Beta Inc", "ORG"⟩, ⟨"Acme Corp", "ORG"⟩, ⟨"Beta Inc", "ORG"⟩]
        "some body text" ⟨[], some "Acme Corp | Home", none, []⟩ = "Acme Corp" := by
  constructor
  · intro orgs title cleaned e he
    rw [entityScores_eq,
      alookup_bonusAcc title cleaned e orgs _ _ (alookup_entityCounts e orgs he)]
    congr 1
    ring
  · decide

/-- Witness for `name_score_per_occurrence`: a single-occurrence entity with
no boosts scores exactly its count. -/
theorem name_score_per_occurrence_witness :
    alookup "Acme" (entityScores ["Acme"] "Acme | Home" "body") =
      some ((["Acme"].count "Acme") * (1 + bonusOf "Acme | Home" "body" "Acme")) :=
  name_score_per_occurrence.1 ["Acme"] "Acme | Home" "body" "Acme" (by decide)

/-- C2 counterexample: `"Acme Corp"` appears twice among the surviving
entities and its lowercase text is in the lowercase cleaned title, so the
code's loop adds the +5 title bonus twice: the final score is 12, not the
2 + 5 = 7 the claim's "single +5 bonus" formula gives. -/
theorem name_single_bonus_counterexample :
    survivors [⟨"Acme Corp", "ORG"⟩, ⟨"Acme Corp", "ORG"⟩] = ["Acme Corp", "Acme Corp"]
    ∧ titleBoost (cleanTitle "Acme Corp | Home") "Acme Corp" = true
    ∧ contextBoost "" "Acme Corp" = false
    ∧ alookup "Acme Corp"
        (entityScores ["Acme Corp", "Acme Corp"] (cleanTitle "Acme Corp | Home") "")
        = some 12
    ∧ claimScore 2 true false = 7
    ∧ (7 : Nat) ≠ 12 := by
  exact ⟨by decide, by decide, by decide, by decide, by decide, by decide⟩

/-! ## Claims C5 and C6: industry classifier -/

theorem foldl_fixed {α β : Type} (f : β → α → β) :
    ∀ (l : List α) (m : β), (∀ (m2 : β) (x : α), x ∈ l → f m2 x = m2) →
      l.foldl f m = m := by
  intro l
  induction l with
  | nil => intro m _; rfl
  | cons x t ih =>
    intro m hfix
    rw [List.foldl_cons, hfix m x (List.mem_cons_self _ _)]
    exact ih m (fun m2 y hy => hfix m2 y (List.mem_cons_of_mem _ hy))

theorem mem_insertScoreDesc (y x : String × Nat) :
    ∀ l, y ∈ insertScoreDesc x l ↔ y = x ∨ y ∈ l := by
  intro l
  induction l with
  | nil => simp [insertScoreDesc]
  | cons z t ih =>
    by_cases h : x.2 ≥ z.2
    · simp only [insertScoreDesc, if_pos h, List.mem_cons]
    · simp only [insertScoreDesc, if_neg h, List.mem_cons, ih]
      tauto

theorem mem_sortScoresDesc (y : String × Nat) :
    ∀ l, y ∈ sortScoresDesc l ↔ y ∈ l := by
  intro l
  induction l with
  | nil => simp [sortScoresDesc]
  | cons x t ih =>
    have hs : sortScoresDesc (x :: t) = insertScoreDesc x (sortScoresDesc t) := rfl
    rw [hs, mem_insertScoreDesc]
    simp only [List.mem_cons, ih]

theorem sortScoresDesc_head_max :
    ∀ (l : List (String × Nat)) (m : Nat),
      (∀ y ∈ l, y.2 ≤ m) → (∃ y ∈ l, y.2 = m) →
      ∃ k rest, sortScoresDesc l = (k, m) :: rest := by
  intro l
  induction l with
  | nil => intro m _ hatt; simp at hatt
  | cons x t ih =>
    intro m hle hatt
    rcases x with ⟨xk, xv⟩
    have hs : sortScoresDesc ((xk, xv) :: t) = insertScoreDesc (xk, xv) (sortScoresDesc t) := rfl
    rw [hs]
    by_cases hx : xv = m
    · subst hx
      cases hs2 : sortScoresDesc t with
      | nil => exact ⟨xk, [], rfl⟩
      | cons y ys =>
        have hymem : y ∈ t := (mem_sortScoresDesc y t).mp (hs2 ▸ List.mem_cons_self y ys)
        have hy2 : y.2 ≤ xv := hle y (List.mem_cons_of_mem _ hymem)
        refine ⟨xk, y :: ys, ?_⟩
        rw [insertScoreDesc, if_pos hy2]
    · have hatt2 : ∃ y ∈ t, y.2 = m := by
        rcases hatt with ⟨y, hy, hym⟩
        rcases List.mem_cons.mp hy with rfl | hyt
        · exact absurd hym hx
        · exact ⟨y, hyt, hym⟩
      obtain ⟨k, rest, hkr⟩ :=
        ih m (fun y hy => hle y (List.mem_cons_of_mem _ hy)) hatt2
      rw [hkr]
      have hxv : xv < m :=
        lt_of_le_of_ne (hle (xk, xv) (List.mem_cons_self _ _)) hx
      refine ⟨k, insertScoreDesc (xk, xv) rest, ?_⟩
      rw [insertScoreDesc, if_neg (not_le.mpr hxv)]

theorem filter_insertScoreDesc_ne (x : String × Nat) (m : Nat) (hx : ¬ x.2 = m) :
    ∀ l, (insertScoreDesc x l).filter (fun p => p.2 = m) =
      l.filter (fun p => p.2 = m) := by
  intro l
  induction l with
  | nil => simp [insertScoreDesc, List.filter_cons, hx]
  | cons z t ih =>
    by_cases h : x.2 ≥ z.2
    · rw [insertScoreDesc, if_pos h, List.filter_cons, List.filter_cons]
      simp [hx]
    · rw [insertScoreDesc, if_neg h, List.filter_cons, List.filter_cons, ih]

theorem sortScoresDesc_filter_top (m : Nat) :
    ∀ (l : List (String × Nat)), (∀ y ∈ l, y.2 ≤ m) →
      (sortScoresDesc l).filter (fun p => p.2 = m) =
        l.filter (fun p => p.2 = m) := by
  intro l
  induction l with
  | nil => intro _; rfl
  | cons x t ih =>
    intro hle
    have hle2 : ∀ y ∈ t, y.2 ≤ m := fun y hy => hle y (List.mem_cons_of_mem _ hy)
    have hs : sortScoresDesc (x :: t) = insertScoreDesc x (sortScoresDesc t) := rfl
    rw [hs]
    by_cases hx : x.2 = m
    · have hcons : insertScoreDesc x (sortScoresDesc t) = x :: sortScoresDesc t := by
        cases hs2 : sortScoresDesc t with
        | nil => rfl
        | cons y ys =>
          have hymem : y ∈ t := (mem_sortScoresDesc y t).mp (hs2 ▸ List.mem_cons_self y ys)
          have hy2 : y.2 ≤ x.2 := le_of_le_of_eq (hle2 y hymem) hx.symm
          rw [insertScoreDesc, if_pos hy2]
      rw [hcons, List.filter_cons, List.filter_cons, ih hle2]
    · rw [filter_insertScoreDesc_ne x m hx, ih hle2, List.filter_cons]
      simp [hx]

/-- C5: when the maximum industry score `m` is positive, the returned label is
the comma-join of the names of ALL entries scoring `m`, in the score list's
own (first-appearance) order — the stable descending sort keeps tied entries
in insertion order, so filtering the sorted list at the top score equals
filtering the unsorted one.  A unique maximum makes that list a singleton, so
the single industry alone is returned. -/
theorem industry_tie_label (doc : List Entity) (cleaned : String)
    (tbl : List (String × List String)) (m : Nat)
    (hle : ∀ p ∈ industryScoresList doc cleaned tbl, p.2 ≤ m)
    (hatt : ∃ p ∈ industryScoresList doc cleaned tbl, p.2 = m)
    (hpos : 0 < m) :
    (determine_specific_industry doc cleaned tbl).1 =
      String.intercalate ", "
        (((industryScoresList doc cleaned tbl).filter (fun p => p.2 = m)).map
          Prod.fst) := by
  obtain ⟨k, rest, hkr⟩ := sortScoresDesc_head_max _ m hle hatt
  unfold determine_specific_industry
  rw [hkr]
  simp only [if_neg (by omega : ¬ m = 0)]
  rw [← hkr, sortScoresDesc_filter_top m _ hle]

/-- Witness for `industry_tie_label`: with keywords "banking" and "tech" both
matching once and no anchors, finance and technology tie at 1 and the label
is their comma-join in first-appearance order. -/
theorem industry_tie_label_witness :
    (determine_specific_industry [] "banking tech"
        [("finance", ["banking"]), ("technology", ["tech"])]).1 =
      String.intercalate ", "
        (((industryScoresList [] "banking tech"
            [("finance", ["banking"]), ("technology", ["tech"])]).filter
          (fun p => p.2 = 1)).map Prod.fst) :=
  industry_tie_label [] "banking tech"
    [("finance", ["banking"]), ("technology", ["tech"])] 1
    (by decide) (by decide) (by decide)

/-- C6: when no keyword of any industry occurs in the lower-cased text nor in
any lower-cased ORG entity text, every score stays 0 — the score dict stays
empty — and the classifier returns `"Unknown"` with an empty score list. -/
theorem industry_all_zero_unknown (doc : List Entity) (cleaned : String)
    (tbl : List (String × List String))
    (hq : ∀ p ∈ tbl, ∀ kw ∈ p.2, pyIn kw (pyLower cleaned) = false)
    (ho : ∀ p ∈ tbl, ∀ kw ∈ p.2, ∀ ent ∈ doc, ent.label = "ORG" →
      pyIn kw (pyLower ent.text) = false) :
    determine_specific_industry doc cleaned tbl = ("Unknown", []) := by
  have hm1 : textFold cleaned tbl [] = [] := by
    unfold textFold
    apply foldl_fixed
    intro m2 p hp
    apply foldl_fixed
    intro m3 kw hkw
    unfold textKwStep
    simp [hq p hp kw hkw]
  have hsc : industryScoresList doc cleaned tbl = [] := by
    unfold industryScoresList
    rw [hm1]
    apply foldl_fixed
    intro m2 ent hent
    unfold orgStep
    by_cases hl : ent.label = "ORG"
    · rw [if_pos hl]
      apply foldl_fixed
      intro m3 p hp
      apply foldl_fixed
      intro m4 kw hkw
      unfold orgKwStep
      simp [ho p hp kw hkw ent hent hl]
    · rw [if_neg hl]
  unfold determine_specific_industry
  rw [hsc]
  rfl

/-- Witness for `industry_all_zero_unknown`: the full keyword table of the
source against a page mentioning none of the keywords. -/
theorem industry_all_zero_unknown_witness :
    determine_specific_industry [⟨"Acme", "ORG"⟩] "hello world" industry_keywords
      = ("Unknown", []) :=
  industry_all_zero_unknown [⟨"Acme", "ORG"⟩] "hello world" industry_keywords
    (by decide) (by decide)

/-! ## Claims C7 and C8: location extractor -/

theorem caughtStep_eq (g : String → Except String (Option GeoComponents))
    (acc : List StructuredLocation) (loc : String) :
    caughtStep g acc loc = acc ++ (resolveOne g loc).toList := by
  unfold caughtStep resolveStep resolveOne
  rcases hg : g loc with e | o
  · simp [hg]
  · rcases o with _ | comps
    · simp [hg]
    · rcases hc : comps.country with _ | country
      · simp [hg, hc]
      · rcases hv : cityOf comps with _ | city
        · simp [hg, hc, hv]
        · simp [hg, hc, hv]

theorem foldl_append_toList (f : String → Option StructuredLocation) :
    ∀ (l : List String) (acc : List StructuredLocation),
      l.foldl (fun a x => a ++ (f x).toList) acc = acc ++ l.filterMap f := by
  intro l
  induction l with
  | nil => intro acc; simp
  | cons x t ih =>
    intro acc
    rw [List.foldl_cons, ih]
    rcases hf : f x with _ | v
    · simp [List.filterMap_cons, hf]
    · simp [List.filterMap_cons, hf]

theorem parse_eq_filterMap (g : String → Except String (Option GeoComponents))
    (locs : List String) :
    parse_with_opencage g locs = (pyDedup locs).filterMap (resolveOne g) := by
  unfold parse_with_opencage
  have hfun : caughtStep g = fun a x => a ++ (resolveOne g x).toList :=
    funext fun a => funext fun x => caughtStep_eq g a x
  rw [hfun, foldl_append_toList]
  simp

theorem pyDedupAux_filter (p : String → Bool) :
    ∀ (l : List String) (seen seen2 : List String),
      (∀ x, p x = true → (x ∈ seen ↔ x ∈ seen2)) →
      pyDedupAux seen (l.filter p) = (pyDedupAux seen2 l).filter p := by
  intro l
  induction l with
  | nil => intro seen seen2 _; rfl
  | cons a t ih =>
    intro seen seen2 hinv
    by_cases hpa : p a = true
    · rw [List.filter_cons, if_pos hpa]
      by_cases ha : a ∈ seen
      · have ha2 : a ∈ seen2 := (hinv a hpa).mp ha
        rw [show pyDedupAux seen (a :: t.filter p) = pyDedupAux seen (t.filter p) by
            simp [pyDedupAux, ha],
          show pyDedupAux seen2 (a :: t) = pyDedupAux seen2 t by
            simp [pyDedupAux, ha2]]
        exact ih seen seen2 hinv
      · have ha2 : a ∉ seen2 := fun h => ha ((hinv a hpa).mpr h)
        rw [show pyDedupAux seen (a :: t.filter p)
              = a :: pyDedupAux (a :: seen) (t.filter p) by simp [pyDedupAux, ha],
          show pyDedupAux seen2 (a :: t) = a :: pyDedupAux (a :: seen2) t by
            simp [pyDedupAux, ha2],
          List.filter_cons, if_pos hpa,
          ih (a :: seen) (a :: seen2)
            (fun x hx => by simp [List.mem_cons, hinv x hx])]
    · rw [List.filter_cons, if_neg hpa]
      by_cases ha2 : a ∈ seen2
      · rw [show pyDedupAux seen2 (a :: t) = pyDedupAux seen2 t by
            simp [pyDedupAux, ha2]]
        exact ih seen seen2 hinv
      · rw [show pyDedupAux seen2 (a :: t) = a :: pyDedupAux (a :: seen2) t by
            simp [pyDedupAux, ha2],
          List.filter_cons, if_neg hpa]
        apply ih
        intro x hx
        constructor
        · intro hxs; exact List.mem_cons_of_mem _ ((hinv x hx).mp hxs)
        · intro hxs
          rcases List.mem_cons.mp hxs with rfl | hxs2
          · exact absurd hx hpa
          · exact (hinv x hx).mpr hxs2

theorem pyDedup_filter (p : String → Bool) (l : List String) :
    pyDedup (l.filter p) = (pyDedup l).filter p :=
  pyDedupAux_filter p l [] [] (fun _ _ => Iff.rfl)

theorem filterMap_filter_none (f : String → Option StructuredLocation)
    (p : String → Bool) (hnone : ∀ x, p x = false → f x = none) :
    ∀ l : List String, (l.filter p).filterMap f = l.filterMap f := by
  intro l
  induction l with
  | nil => rfl
  | cons a t ih =>
    by_cases hpa : p a = true
    · rw [List.filter_cons, if_pos hpa, List.filterMap_cons, List.filterMap_cons]
      cases hf : f a <;> simp [hf, ih]
    · rw [List.filter_cons, if_neg hpa, List.filterMap_cons,
        hnone a (by simpa using hpa)]
      exact ih

/-- C7: the per-location `try`/`except` makes a geocoding error contribute
nothing and affect nothing else — the extractor's output over any input list
equals its output over that list with the erroring strings removed, so every
other string is still resolved; and one erroring step leaves the accumulator
exactly as it was, never propagating the error (the function is total and
returns a plain list). -/
theorem geocoding_error_skipped (g : String → Except String (Option GeoComponents))
    (locs : List String) :
    parse_with_opencage g locs =
      parse_with_opencage g (locs.filter (fun s => !(geoFails g s)))
    ∧ ∀ (acc : List StructuredLocation) (loc : String),
        geoFails g loc = true → caughtStep g acc loc = acc := by
  constructor
  · have hnone : ∀ x, (!(geoFails g x)) = false → resolveOne g x = none := by
      intro x hx
      unfold resolveOne
      rcases hg : g x with e | o
      · simp [hg]
      · exfalso
        unfold geoFails at hx
        rw [hg] at hx
        simp at hx
    rw [parse_eq_filterMap, parse_eq_filterMap, pyDedup_filter]
    exact (filterMap_filter_none (resolveOne g) _ hnone _).symm
  · intro acc loc hfail
    unfold caughtStep resolveStep
    unfold geoFails at hfail
    rcases hg : g loc with e | o
    · simp [hg]
    · rw [hg] at hfail
      simp at hfail

/-- Witness for `geocoding_error_skipped`: a geocoder that fails on
`"Atlantis"` but resolves `"Paris"`. -/
def geoWitnessFn : String → Except String (Option GeoComponents) := fun s =>
  if s = "Atlantis" then .error "no such place"
  else if s = "Paris" then .ok (some ⟨some "Paris", none, none, some "France"⟩)
  else .ok none

theorem geocoding_error_skipped_witness :
    parse_with_opencage geoWitnessFn ["Paris", "Atlantis"] =
      parse_with_opencage geoWitnessFn
        (["Paris", "Atlantis"].filter (fun s => !(geoFails geoWitnessFn s)))
    ∧ caughtStep geoWitnessFn [] "Atlantis" = [] :=
  ⟨(geocoding_error_skipped geoWitnessFn ["Paris", "Atlantis"]).1,
   (geocoding_error_skipped geoWitnessFn ["Paris", "Atlantis"]).2 [] "Atlantis" rfl⟩

/-- C8: every entry of the location extractor's output carries a country — an
entry's country is the geocoder's country component for some input string
with a successful resolution, and its city is the first present of
city/town/village; conversely any successfully resolved input whose
components include a country appears in the output, with or without a city.
No entry with a city but no country can occur. -/
theorem location_country_required (g : String → Except String (Option GeoComponents))
    (locs : List String) :
    (∀ e ∈ parse_with_opencage g locs, e.country.isSome = true ∧
      ∃ loc ∈ pyDedup locs, ∃ comps : GeoComponents, g loc = .ok (some comps) ∧
        e.country = comps.country ∧ e.city = cityOf comps)
    ∧ ∀ loc ∈ pyDedup locs, ∀ comps : GeoComponents, g loc = .ok (some comps) →
        comps.country.isSome = true →
        (⟨cityOf comps, comps.country⟩ : StructuredLocation) ∈
          parse_with_opencage g locs := by
  constructor
  · intro e he
    rw [parse_eq_filterMap] at he
    rcases List.mem_filterMap.mp he with ⟨loc, hloc, hres⟩
    unfold resolveOne at hres
    rcases hg : g loc with e2 | o
    · rw [hg] at hres; simp at hres
    · rcases o with _ | comps
      · rw [hg] at hres; simp at hres
      · rw [hg] at hres
        rcases hc : comps.country with _ | country
        · simp [hc] at hres
        · simp only [hc, Option.some.injEq] at hres
          subst hres
          exact ⟨rfl, loc, hloc, comps, hg, hc.symm, rfl⟩
  · intro loc hloc comps hg hcs
    rw [parse_eq_filterMap]
    apply List.mem_filterMap.mpr
    refine ⟨loc, hloc, ?_⟩
    unfold resolveOne
    rw [hg]
    rcases hc : comps.country with _ | country
    · rw [hc] at hcs; simp at hcs
    · simp [hc]

/-- Witness for `location_country_required`: the resolved components of
`"Paris"` appear in the output with their country. -/
theorem location_country_required_witness :
    (⟨some "Paris", some "France"⟩ : StructuredLocation) ∈
      parse_with_opencage geoWitnessFn ["Paris"] :=
  (location_country_required geoWitnessFn ["Paris"]).2 "Paris" (by decide)
    ⟨some "Paris", none, none, some "France"⟩ rfl rfl
